import Mathlib

set_option autoImplicit false

/-!
Verification development for the nodecmp tool: a shallow embedding of the
peer-snapshot comparison program (loading peer snapshots into maps,
intersecting them, and probing each common peer for its protocol version
over a length-prefixed TCP handshake), together with theorems settling the
documented properties of each component.

Go maps from addresses to booleans are modelled as association lists
(`PeerSet`); map reads, writes and iteration are modelled by the
corresponding list operations.  I/O (file opening, line reads, JSON
decoding, dialing, socket reads and writes) is modelled by passing the
outcome of each operation explicitly as an environment value, and the
network-facing function additionally records a trace of the socket
operations it performs.
-/

namespace Nodecmp

/-- Error values produced by the runtime environment (the Go error strings). -/
abbrev GoErr := String

/-- Embeds the struct nodeEntry of main.go: a single entry of the node.json
file, with its netaddress and wasoutboundpeer fields. -/
structure nodeEntry where
  address : String
  outbound : Bool
deriving Repr, DecidableEq

/-- A Go map from address strings to outbound flags, modelled as an
association list; lookup finds the first matching key. -/
abbrev PeerSet := List (String × Bool)

/-- Map read: the value stored for a key, if present. -/
def PeerSet.lookup : PeerSet → String → Option Bool
  | [], _ => none
  | p :: rest, k => if p.1 = k then some p.2 else PeerSet.lookup rest k

/-- Map write, modelling the Go assignment of a value to a key: overwrite
the value if the key is present, otherwise append a fresh pair. -/
def mapAssign (m : PeerSet) (k : String) (v : Bool) : PeerSet :=
  if (PeerSet.lookup m k).isSome then
    m.map fun p => if p.1 = k then (k, v) else p
  else
    m ++ [(k, v)]

/-- Embeds the entry-set construction loop of loadNodes (main.go lines
128-133): fold the decoded entries into an initially empty map, assigning
each entry's outbound flag to its address in order. -/
def entrySet (entries : List nodeEntry) : PeerSet :=
  entries.foldl (fun s e => mapAssign s e.address e.outbound) []

/-- Embeds intersect of main.go (lines 136-145): iterate over the first
map, keeping each key that also exists in the second map, with the value
taken from the first map. -/
def intersect (m1 m2 : PeerSet) : PeerSet :=
  m1.filter fun p => (PeerSet.lookup m2 p.1).isSome

/-- Embeds the reduction loop of main (main.go lines 157-161): start from
the first loaded set and left-fold intersect over the remaining sets. -/
def mainIntersect (s1 : PeerSet) (rest : List PeerSet) : PeerSet :=
  rest.foldl intersect s1

/-! The Snapshot Loader (loadNodes, main.go lines 97-134).  The outcomes of
its three I/O stages (opening the file, reading the three metadata lines,
JSON-decoding the remainder) are supplied by a SnapshotStream environment;
the function itself either terminates the process with fmt.Print of a
labeled message followed by exit status 1, or returns the built entry
set. -/

/-- Error label printed on invalid user input (main.go line 17). -/
def errInvalidArgs : String := "provided args are invalid: "

/-- Error label printed on missing or invalid metadata (main.go line 18). -/
def errInvalidMD : String := "error while reading metadata: "

/-- Error label printed on a corrupted json file (main.go line 19). -/
def errDecode : String := "error while decoding entries: "

/-- Error label used when a host's version cannot be read (main.go line 20). -/
def errVersion : String := "error while getting version from host: "

/-- Environment describing what the file system delivers for one snapshot
file: whether os.Open fails, whether one of the three metadata ReadLine
calls fails (with which error), and the result of decoding the remaining
bytes as a JSON array of nodeEntry. -/
structure SnapshotStream where
  openErr : Option GoErr
  metadataErr : Option GoErr
  decoded : Except GoErr (List nodeEntry)
deriving Repr

/-- Result of running loadNodes: either the process exits with a status
code after printing a message, or the entry set is returned. -/
inductive LoadOutcome where
  | exitProc (code : Nat) (msg : String)
  | ok (s : PeerSet)
deriving Repr, DecidableEq

/-- Embeds loadNodes of main.go (lines 97-134): on an open error, a
metadata read error or a decode error it prints the labeled message and
exits the process with status 1; otherwise it folds the decoded entries
into a map. -/
def loadNodes (f : SnapshotStream) : LoadOutcome :=
  match f.openErr with
  | some e => LoadOutcome.exitProc 1 (errInvalidArgs ++ e)
  | none =>
    match f.metadataErr with
    | some e => LoadOutcome.exitProc 1 (errInvalidMD ++ e)
    | none =>
      match f.decoded with
      | Except.error e => LoadOutcome.exitProc 1 (errDecode ++ e)
      | Except.ok entries => LoadOutcome.ok (entrySet entries)

/-! The Version Probe Protocol (nodeVersion, main.go lines 53-95, with the
helpers readPrefix lines 34-41 and writePrefix lines 43-51 inlined).  The
connection is modelled by a ConnEnv carrying the outcome of each socket
operation in program order; nodeVersion returns the trace of socket events
it performed together with its result.  Bytes are naturals reduced mod 256
at the encoding boundary. -/

/-- Socket events a nodeVersion invocation can perform.  A dial event
records the network, the address and the dialer timeout in nanoseconds; a
read event records the buffer size requested, the bytes delivered and the
error returned. -/
inductive NetEvent where
  | dial (network : String) (addr : String) (timeoutNs : Nat)
  | write (bytes : List Nat)
  | setReadDeadline (ns : Nat)
  | read (bufSize : Nat) (delivered : List Nat) (err : Option GoErr)
  | close
deriving Repr, DecidableEq

/-- Time value of the dialer timeout in main.go line 57: time.Minute in
nanoseconds. -/
def timeMinuteNs : Nat := 60 * 1000000000

/-- Little-endian encoding of a value into 8 bytes, as
binary.LittleEndian.PutUint64 produces for writePrefix. -/
def lePut64 (v : Nat) : List Nat :=
  [v % 256, v / 256 % 256, v / 256 ^ 2 % 256, v / 256 ^ 3 % 256,
   v / 256 ^ 4 % 256, v / 256 ^ 5 % 256, v / 256 ^ 6 % 256, v / 256 ^ 7 % 256]

/-- Little-endian decoding of (the first 8 bytes of) a buffer, as
binary.LittleEndian.Uint64 computes for readPrefix. -/
def leUint64 (bs : List Nat) : Nat :=
  (bs.take 8).foldr (fun b acc => b % 256 + 256 * acc) 0

/-- Contents of a zero-initialized buffer of the given size after a read
delivered the given bytes into its front: Go's make allocates zeros and
Read fills only the first n positions. -/
def fillBuf (size : Nat) (delivered : List Nat) : List Nat :=
  delivered.take size ++ List.replicate (size - (delivered.take size).length) 0

/-- The client's own version bytes sent in the handshake: the byte slice of
the literal string of main.go line 72. -/
def ownVersion : List Nat :=
  "1.2.0".toList.map Char.toNat

/-- Environment describing what the network delivers to one nodeVersion
invocation, one field per socket operation in program order: the dial
outcome, the outcomes of the three writes, and for each of the two reads
the bytes delivered and the error returned. -/
structure ConnEnv where
  dialErr : Option GoErr
  write1Err : Option GoErr
  write2Err : Option GoErr
  write3Err : Option GoErr
  read1Bytes : List Nat
  read1Err : Option GoErr
  read2Bytes : List Nat
  read2Err : Option GoErr
deriving Repr

/-- Embeds nodeVersion of main.go (lines 53-95).  It dials tcp with a
one-minute dialer timeout, writes the 8-byte prefix 13, the 8-byte prefix
of the own-version length, and the own version bytes; it then reads an
8-byte prefix buffer, allocates a buffer of the decoded size and reads the
peer version into it.  Each operation whose environment outcome is an
error aborts with that error; the byte counts of reads are ignored exactly
as in the source, so a short delivery without an error leaves the
remainder of the zero-initialized buffer in place.  Returns the trace of
socket events and the result. -/
def nodeVersion (addr : String) (env : ConnEnv) :
    List NetEvent × Except GoErr (List Nat) :=
  let evs0 := [NetEvent.dial "tcp" addr timeMinuteNs]
  match env.dialErr with
  | some e => (evs0, Except.error e)
  | none =>
    let evs1 := evs0 ++ [NetEvent.write (lePut64 13)]
    match env.write1Err with
    | some e => (evs1, Except.error e)
    | none =>
      let evs2 := evs1 ++ [NetEvent.write (lePut64 ownVersion.length)]
      match env.write2Err with
      | some e => (evs2, Except.error e)
      | none =>
        let evs3 := evs2 ++ [NetEvent.write ownVersion]
        match env.write3Err with
        | some e => (evs3, Except.error e)
        | none =>
          let evs4 := evs3 ++ [NetEvent.read 8 (env.read1Bytes.take 8) env.read1Err]
          match env.read1Err with
          | some e => (evs4, Except.error e)
          | none =>
            let pfxVal := leUint64 (fillBuf 8 env.read1Bytes)
            let evs5 := evs4 ++
              [NetEvent.read pfxVal (env.read2Bytes.take pfxVal) env.read2Err]
            match env.read2Err with
            | some e => (evs5, Except.error e)
            | none => (evs5, Except.ok (fillBuf pfxVal env.read2Bytes))

/-- The write payloads of a trace, in order. -/
def writtenBytes (evs : List NetEvent) : List (List Nat) :=
  evs.filterMap fun e =>
    match e with
    | NetEvent.write bs => some bs
    | _ => none

/-- Whether an event is a read-deadline application. -/
def isSetReadDeadline (e : NetEvent) : Bool :=
  match e with
  | NetEvent.setReadDeadline _ => true
  | _ => false

/-- Whether an event is a socket read. -/
def isRead (e : NetEvent) : Bool :=
  match e with
  | NetEvent.read _ _ _ => true
  | _ => false

/-- Whether an event is a dial. -/
def isDial (e : NetEvent) : Bool :=
  match e with
  | NetEvent.dial _ _ _ => true
  | _ => false

/-- Whether an event closes the connection. -/
def isClose (e : NetEvent) : Bool :=
  match e with
  | NetEvent.close => true
  | _ => false

/-! The Probe Orchestrator (main.go lines 163-174): one goroutine per
address of the intersected map, each calling nodeVersion and printing one
line on success and nothing on failure.  The probe outcome for each
address is supplied as a function, and the printed lines are collected as
a list; the console ordering of concurrently printed lines is abstracted
as the iteration order of the address list. -/

/-- The successful (address, version) pairs: one probe per address, keeping
only the results whose error is nil. -/
def probeResults (addrs : List String) (probe : String → Except GoErr String) :
    List (String × String) :=
  addrs.filterMap fun a =>
    match probe a with
    | Except.ok v => some (a, v)
    | Except.error _ => none

/-- The line printed for one successful probe (fmt.Printf of main.go line
169). -/
def probeLine (a v : String) : String := a ++ " -> " ++ v

/-- The lines printed by the probe loop of main: one formatted line per
successful probe, nothing for a failed one. -/
def orchestrate (addrs : List String) (probe : String → Except GoErr String) :
    List String :=
  (probeResults addrs probe).map fun r => probeLine r.1 r.2

/-! The legacy two-file variant (src/unnamed/part_000, main lines 84-93):
after decoding both files it builds a set of the first file's addresses
and prints, while iterating over the second file's entries in order, each
address that is in that set. -/

/-- Membership of an address in the set built from the first file's
entries (the entryMap of the legacy variant). -/
def hasAddr (entries : List nodeEntry) (a : String) : Bool :=
  entries.any fun e => e.address == a

/-- Embeds the printing loop of the legacy variant: the addresses printed,
in order, by iterating over the second file's entries and printing those
whose address exists in the first file's set. -/
def legacyMain (entries1 entries2 : List nodeEntry) : List String :=
  entries2.filterMap fun e =>
    if hasAddr entries1 e.address then some e.address else none

/-- Transparent description of the flag loadNodes keeps for an address:
the outbound flag of the last entry of the array carrying that address,
if any.  Used to state what the assignment loop computes. -/
def lastFlag (entries : List nodeEntry) (a : String) : Option Bool :=
  entries.foldl (fun acc e => if e.address = a then some e.outbound else acc) none

/-! Lemmas about the map model. -/

theorem lookup_append (s t : PeerSet) (a : String) :
    PeerSet.lookup (s ++ t) a =
      match PeerSet.lookup s a with
      | some v => some v
      | none => PeerSet.lookup t a := by
  induction s with
  | nil => simp [PeerSet.lookup]
  | cons p rest ih =>
    by_cases h : p.1 = a
    · simp [PeerSet.lookup, h]
    · simp [PeerSet.lookup, h, ih]

theorem lookup_mapAssign (s : PeerSet) (k : String) (v : Bool) (a : String) :
    PeerSet.lookup (mapAssign s k v) a =
      if k = a then
        (if (PeerSet.lookup s k).isSome then some v else PeerSet.lookup ([(k, v)] : PeerSet) a)
      else PeerSet.lookup s a := by
  have hmap : ∀ s : PeerSet,
      PeerSet.lookup (s.map fun p => if p.1 = k then (k, v) else p) a =
        if k = a then (PeerSet.lookup s k).map (fun _ => v) else PeerSet.lookup s a := by
    intro s
    induction s with
    | nil => by_cases h : k = a <;> simp [PeerSet.lookup, h]
    | cons p rest ih =>
      by_cases hp : p.1 = k
      · by_cases hk : k = a
        · simp [PeerSet.lookup, hp, hk, List.map_cons]
        · have hpa : ¬ p.1 = a := by rw [hp]; exact hk
          simp [PeerSet.lookup, hp, hk, hpa, List.map_cons, ih]
      · by_cases hpa : p.1 = a
        · have hk : ¬ k = a := by
            intro hka
            exact hp (hpa.trans hka.symm)
          have hak : ¬ a = k := fun h => hk h.symm
          simp [PeerSet.lookup, hp, hpa, hk, hak, List.map_cons]
        · simp [PeerSet.lookup, hp, hpa, List.map_cons, ih]
  unfold mapAssign
  by_cases hs : (PeerSet.lookup s k).isSome
  · rw [if_pos hs, hmap]
    by_cases hk : k = a
    · subst hk
      rcases Option.isSome_iff_exists.mp hs with ⟨b, hb⟩
      simp [hs, hb]
    · simp [hk]
  · rw [if_neg hs, lookup_append]
    have hnone : PeerSet.lookup s k = none := by
      cases h : PeerSet.lookup s k with
      | none => rfl
      | some b => rw [h] at hs; simp at hs
    by_cases hk : k = a
    · subst hk
      simp [hnone, hs, PeerSet.lookup]
    · cases h : PeerSet.lookup s a with
      | none => simp [hk, PeerSet.lookup, fun h => hk h]
      | some b => simp [hk]

theorem lookup_mapAssign_simple (s : PeerSet) (k : String) (v : Bool) (a : String) :
    PeerSet.lookup (mapAssign s k v) a =
      if k = a then some v else PeerSet.lookup s a := by
  rw [lookup_mapAssign]
  by_cases hk : k = a
  · subst hk
    by_cases hs : (PeerSet.lookup s k).isSome <;> simp [hs, PeerSet.lookup]
  · simp [hk]

theorem lookup_intersect (m1 m2 : PeerSet) (a : String) :
    PeerSet.lookup (intersect m1 m2) a =
      if (PeerSet.lookup m2 a).isSome then PeerSet.lookup m1 a else none := by
  induction m1 with
  | nil =>
    by_cases h : (PeerSet.lookup m2 a).isSome <;> simp [intersect, PeerSet.lookup, h]
  | cons p rest ih =>
    by_cases hpa : p.1 = a
    · subst hpa
      by_cases h2 : (PeerSet.lookup m2 p.1).isSome
      · simp [intersect, List.filter_cons, h2, PeerSet.lookup]
      · simpa [intersect, List.filter_cons, h2, PeerSet.lookup] using ih
    · by_cases h2 : (PeerSet.lookup m2 p.1).isSome
      · simpa [intersect, List.filter_cons, h2, PeerSet.lookup, hpa] using ih
      · simpa [intersect, List.filter_cons, h2, PeerSet.lookup, hpa] using ih

theorem lookup_self_isSome (s : PeerSet) (p : String × Bool) (hp : p ∈ s) :
    (PeerSet.lookup s p.1).isSome = true := by
  induction s with
  | nil => cases hp
  | cons q rest ih =>
    rcases List.mem_cons.mp hp with h | h
    · subst h
      simp [PeerSet.lookup]
    · by_cases hq : q.1 = p.1
      · simp [PeerSet.lookup, hq]
      · simpa [PeerSet.lookup, hq] using ih h

theorem lookup_mainIntersect (s1 : PeerSet) (rest : List PeerSet) (a : String) :
    PeerSet.lookup (mainIntersect s1 rest) a =
      if (rest.all fun s => (PeerSet.lookup s a).isSome) then PeerSet.lookup s1 a
      else none := by
  induction rest generalizing s1 with
  | nil => simp [mainIntersect]
  | cons s rest ih =>
    have hstep : mainIntersect s1 (s :: rest) = mainIntersect (intersect s1 s) rest := rfl
    rw [hstep, ih, lookup_intersect]
    by_cases hs : (PeerSet.lookup s a).isSome
    · by_cases hrest : rest.all fun t => (PeerSet.lookup t a).isSome
      · simp [List.all_cons, hs, hrest]
      · simp [List.all_cons, hs, hrest]
    · by_cases hrest : rest.all fun t => (PeerSet.lookup t a).isSome
      · simp [List.all_cons, hs, hrest]
      · simp [List.all_cons, hs, hrest]

theorem lookup_entrySet_aux (entries : List nodeEntry) (s : PeerSet) (a : String) :
    PeerSet.lookup (entries.foldl (fun m e => mapAssign m e.address e.outbound) s) a =
      entries.foldl (fun acc e => if e.address = a then some e.outbound else acc)
        (PeerSet.lookup s a) := by
  induction entries generalizing s with
  | nil => rfl
  | cons e rest ih =>
    simp only [List.foldl_cons]
    rw [ih, lookup_mapAssign_simple]

theorem lookup_entrySet (entries : List nodeEntry) (a : String) :
    PeerSet.lookup (entrySet entries) a = lastFlag entries a := by
  unfold entrySet lastFlag
  rw [lookup_entrySet_aux]
  rfl

theorem lastFlag_isSome (entries : List nodeEntry) (a : String) :
    (lastFlag entries a).isSome = hasAddr entries a := by
  unfold lastFlag hasAddr
  induction entries using List.reverseRecOn with
  | nil => rfl
  | append_singleton rest e ih =>
    rw [List.foldl_append, List.any_append]
    by_cases h : e.address = a
    · simp [h]
    · simp only [List.foldl_cons, List.foldl_nil, List.any_cons, List.any_nil, if_neg h, ih]
      simp [h]

theorem length_mapAssign (s : PeerSet) (k : String) (v : Bool) :
    (mapAssign s k v).length ≤ s.length + 1 := by
  unfold mapAssign
  by_cases hs : (PeerSet.lookup s k).isSome
  · simp [hs]
  · simp [hs]

theorem length_entrySet (entries : List nodeEntry) :
    (entrySet entries).length ≤ entries.length := by
  have aux : ∀ (l : List nodeEntry) (s : PeerSet),
      (l.foldl (fun m e => mapAssign m e.address e.outbound) s).length ≤
        s.length + l.length := by
    intro l
    induction l with
    | nil => intro s; simp
    | cons e rest ih =>
      intro s
      calc (List.foldl (fun m e => mapAssign m e.address e.outbound)
              (mapAssign s e.address e.outbound) rest).length ≤
            (mapAssign s e.address e.outbound).length + rest.length := ih _
        _ ≤ s.length + 1 + rest.length :=
            Nat.add_le_add_right (length_mapAssign s e.address e.outbound) _
        _ = s.length + (e :: rest).length := by simp [Nat.add_assoc, Nat.add_comm 1]
  simpa using aux entries []

theorem hasAddr_iff_mem (entries : List nodeEntry) (a : String) :
    hasAddr entries a = true ↔ a ∈ entries.map fun e => e.address := by
  unfold hasAddr
  rw [List.any_eq_true]
  constructor
  · rintro ⟨e, he, heq⟩
    exact List.mem_map.mpr ⟨e, he, beq_iff_eq.mp heq⟩
  · intro h
    rcases List.mem_map.mp h with ⟨e, he, heq⟩
    exact ⟨e, he, beq_iff_eq.mpr heq⟩

theorem legacyMain_eq_filter (entries1 entries2 : List nodeEntry) :
    legacyMain entries1 entries2 =
      (entries2.map fun e => e.address).filter (hasAddr entries1) := by
  induction entries2 with
  | nil => rfl
  | cons e rest ih =>
    by_cases h : hasAddr entries1 e.address
    · simp only [legacyMain, List.filterMap_cons, h, if_pos, List.map_cons,
        List.filter_cons] at *
      simp [h, ih]
    · simp only [legacyMain, List.filterMap_cons, List.map_cons, List.filter_cons] at *
      simp [h, ih]

/-! Claim theorems. -/

/-- C1: for every collection of two or more PeerSets reduced by the left
fold in main, the result contains an address iff it is a key in every
input set, and the stored flag is the one from the first set; later
operands only decide membership. -/
theorem mainIntersect_fold_spec (s1 s2 : PeerSet) (rest : List PeerSet) (a : String) :
    PeerSet.lookup (mainIntersect s1 (s2 :: rest)) a =
      (if ((s2 :: rest).all fun s => (PeerSet.lookup s a).isSome) then
        PeerSet.lookup s1 a else none) ∧
    ((PeerSet.lookup (mainIntersect s1 (s2 :: rest)) a).isSome ↔
      ∀ s ∈ s1 :: s2 :: rest, (PeerSet.lookup s a).isSome) := by
  refine ⟨lookup_mainIntersect s1 (s2 :: rest) a, ?_⟩
  rw [lookup_mainIntersect]
  by_cases hall : ((s2 :: rest).all fun s => (PeerSet.lookup s a).isSome) = true
  · rw [if_pos hall]
    rw [List.all_eq_true] at hall
    constructor
    · intro h s hs
      rcases List.mem_cons.mp hs with rfl | hs
      · exact h
      · exact hall s hs
    · intro h
      exact h s1 (List.mem_cons_self s1 _)
  · rw [if_neg hall]
    rw [List.all_eq_true] at hall
    constructor
    · intro h
      simp at h
    · intro h
      exact absurd (fun s hs => h s (List.mem_cons_of_mem s1 hs)) hall

/-- C8: intersect is idempotent, commutative on key sets, and the flag
values of an intersection always come from the left operand (the value
stored for a key is the left operand's whenever the key is kept). -/
theorem intersect_idem_comm_flags :
    (∀ s : PeerSet, intersect s s = s) ∧
    (∀ (s1 s2 : PeerSet) (a : String),
      (PeerSet.lookup (intersect s1 s2) a).isSome =
        (PeerSet.lookup (intersect s2 s1) a).isSome) ∧
    (∀ (s1 s2 : PeerSet) (a : String),
      PeerSet.lookup (intersect s1 s2) a =
        if (PeerSet.lookup s2 a).isSome then PeerSet.lookup s1 a else none) := by
  refine ⟨?_, ?_, fun s1 s2 a => lookup_intersect s1 s2 a⟩
  · intro s
    unfold intersect
    rw [List.filter_eq_self]
    intro p hp
    exact lookup_self_isSome s p hp
  · intro s1 s2 a
    rw [lookup_intersect, lookup_intersect]
    by_cases h1 : (PeerSet.lookup s1 a).isSome <;>
      by_cases h2 : (PeerSet.lookup s2 a).isSome <;> simp [h1, h2]

/-- C9: the set built by the loader maps each address to the outbound flag
of the last entry of the array with that address, its key count never
exceeds the array length, and on an array with a repeated address the key
count is strictly smaller. -/
theorem entrySet_last_occurrence :
    (∀ (entries : List nodeEntry) (a : String),
      PeerSet.lookup (entrySet entries) a = lastFlag entries a) ∧
    (∀ entries : List nodeEntry, (entrySet entries).length ≤ entries.length) ∧
    (entrySet [⟨"1.2.3.4:9981", true⟩, ⟨"1.2.3.4:9981", false⟩]).length <
      ([⟨"1.2.3.4:9981", true⟩, ⟨"1.2.3.4:9981", false⟩] : List nodeEntry).length := by
  refine ⟨lookup_entrySet, length_entrySet, ?_⟩
  decide

/-- C10: when the second file's entries have pairwise distinct addresses,
the legacy two-file variant prints each address at most once and the set
of addresses it prints is exactly the key set of intersect applied to the
two loaded PeerSets. -/
theorem legacyMain_matches_intersect (entries1 entries2 : List nodeEntry)
    (h : (entries2.map fun e => e.address).Nodup) :
    (legacyMain entries1 entries2).Nodup ∧
    ∀ a : String, a ∈ legacyMain entries1 entries2 ↔
      (PeerSet.lookup (intersect (entrySet entries1) (entrySet entries2)) a).isSome := by
  constructor
  · rw [legacyMain_eq_filter]
    exact h.filter _
  · intro a
    rw [legacyMain_eq_filter, List.mem_filter, lookup_intersect,
      lookup_entrySet, lookup_entrySet, lastFlag_isSome]
    by_cases h2 : hasAddr entries2 a
    · have hmem : a ∈ entries2.map fun e => e.address := (hasAddr_iff_mem _ _).mp h2
      rw [if_pos h2]
      rw [lastFlag_isSome]
      constructor
      · intro hx
        exact hx.2
      · intro hx
        exact ⟨hmem, hx⟩
    · rw [if_neg h2]
      constructor
      · intro hx
        exact absurd ((hasAddr_iff_mem _ _).mpr hx.1) (by simp_all)
      · intro hx
        simp at hx

/-- Witness for C10 at a concrete pair of entry lists. -/
theorem legacyMain_matches_intersect_witness :
    (legacyMain [⟨"a", true⟩, ⟨"b", false⟩] [⟨"b", true⟩, ⟨"c", false⟩]).Nodup ∧
    ("b" ∈ legacyMain [⟨"a", true⟩, ⟨"b", false⟩] [⟨"b", true⟩, ⟨"c", false⟩] ↔
      (PeerSet.lookup (intersect (entrySet [⟨"a", true⟩, ⟨"b", false⟩])
        (entrySet [⟨"b", true⟩, ⟨"c", false⟩])) "b").isSome) :=
  ⟨(legacyMain_matches_intersect [⟨"a", true⟩, ⟨"b", false⟩] [⟨"b", true⟩, ⟨"c", false⟩]
      (by decide)).1,
   (legacyMain_matches_intersect [⟨"a", true⟩, ⟨"b", false⟩] [⟨"b", true⟩, ⟨"c", false⟩]
      (by decide)).2 "b"⟩

/-- C5 counterexample: at a concrete failing input (the file cannot be
opened) loadNodes itself terminates the process with exit status 1 after
printing the labeled message, rather than returning a typed error to its
caller. -/
theorem loadNodes_exits_on_open_error :
    loadNodes ⟨some "no such file", none, Except.ok []⟩ =
      LoadOutcome.exitProc 1 (errInvalidArgs ++ "no such file") := rfl

/-- C5 amended: on every load failure loadNodes prints the corresponding
labeled message and terminates the process with exit status 1 itself; the
caller only ever receives a successfully built PeerSet, and the exit-code
mapping happens inside the loader, not in a separate CLI layer. -/
theorem loadNodes_exit_mapping (e : GoErr) (me : Option GoErr)
    (dr : Except GoErr (List nodeEntry)) (entries : List nodeEntry) :
    loadNodes ⟨some e, me, dr⟩ = LoadOutcome.exitProc 1 (errInvalidArgs ++ e) ∧
    loadNodes ⟨none, some e, dr⟩ = LoadOutcome.exitProc 1 (errInvalidMD ++ e) ∧
    loadNodes ⟨none, none, Except.error e⟩ = LoadOutcome.exitProc 1 (errDecode ++ e) ∧
    loadNodes ⟨none, none, Except.ok entries⟩ = LoadOutcome.ok (entrySet entries) :=
  ⟨rfl, rfl, rfl, rfl⟩

/-- C7: the probe loop produces exactly one (address, version) pair per
successful probe, the printed lines are exactly the formatted pairs, and
the number of lines equals the number of addresses whose probe succeeded;
an address whose probe failed contributes nothing and no failure aborts
the run. -/
theorem orchestrate_success_lines (addrs : List String)
    (probe : String → Except GoErr String) :
    (∀ a v, (a, v) ∈ probeResults addrs probe ↔ (a ∈ addrs ∧ probe a = Except.ok v)) ∧
    orchestrate addrs probe = (probeResults addrs probe).map (fun r => probeLine r.1 r.2) ∧
    (orchestrate addrs probe).length =
      (addrs.filter fun a => (probe a).toOption.isSome).length := by
  refine ⟨?_, rfl, ?_⟩
  · intro a v
    unfold probeResults
    rw [List.mem_filterMap]
    constructor
    · rintro ⟨b, hb, hf⟩
      cases hpb : probe b with
      | ok w =>
        rw [hpb] at hf
        simp only [Option.some.injEq, Prod.mk.injEq] at hf
        rcases hf with ⟨rfl, rfl⟩
        exact ⟨hb, hpb⟩
      | error err =>
        rw [hpb] at hf
        cases hf
    · rintro ⟨ha, hp⟩
      refine ⟨a, ha, ?_⟩
      rw [hp]
  · unfold orchestrate
    rw [List.length_map]
    induction addrs with
    | nil => rfl
    | cons a rest ih =>
      cases hpa : probe a with
      | ok v =>
        simp only [probeResults, List.filterMap_cons, hpa, List.filter_cons,
          Except.toOption, Option.isSome_some, if_pos] at *
        simp [ih]
      | error err =>
        simp only [probeResults, List.filterMap_cons, hpa, List.filter_cons,
          Except.toOption, Option.isSome_none] at *
        simp [ih]

/-- Environment of a fully successful probe exchange: the peer declares a
5-byte version and delivers the 5 bytes of "9.9.9" with no error
anywhere. -/
def envAllOk : ConnEnv :=
  ⟨none, none, none, none, [5, 0, 0, 0, 0, 0, 0, 0], none, [57, 46, 57, 46, 57], none⟩

/-- Environment in which the peer declares a 5-byte version but delivers
only a single byte in the one read, with no error reported. -/
def envShortRead : ConnEnv :=
  ⟨none, none, none, none, [5, 0, 0, 0, 0, 0, 0, 0], none, [57], none⟩

/-- The length of a read buffer after a delivery is always the allocated
size: undelivered positions keep their zero initialization. -/
theorem length_fillBuf (size : Nat) (d : List Nat) : (fillBuf size d).length = size := by
  unfold fillBuf
  rw [List.length_append, List.length_replicate]
  have h : (d.take size).length ≤ size := by
    rw [List.length_take]
    exact Nat.min_le_left _ _
  omega

/-- C2 counterexample: with a received prefix declaring 5 bytes and a
single read delivering only 1 byte with no error, nodeVersion returns
success, padding the missing bytes with zeros, instead of failing. -/
theorem nodeVersion_short_read_success :
    leUint64 (fillBuf 8 envShortRead.read1Bytes) = 5 ∧
    envShortRead.read2Bytes.length = 1 ∧
    (nodeVersion "1.2.3.4:9981" envShortRead).2 = Except.ok [57, 0, 0, 0, 0] :=
  ⟨rfl, rfl, rfl⟩

/-- C2 amended: nodeVersion fails exactly when the dial, a write or a read
reports an error; a read that delivers fewer bytes than the received
prefix declared but reports no error is not detected: the call succeeds
and returns a byte string whose length always equals the declared prefix
value, with the undelivered tail positions equal to zero. -/
theorem nodeVersion_read_outcomes (addr : String) (b1 b2 : List Nat) (e : GoErr) :
    (nodeVersion addr ⟨none, none, none, none, b1, none, b2, none⟩).2 =
      Except.ok (fillBuf (leUint64 (fillBuf 8 b1)) b2) ∧
    (fillBuf (leUint64 (fillBuf 8 b1)) b2).length = leUint64 (fillBuf 8 b1) ∧
    (nodeVersion addr ⟨none, none, none, none, b1, none, b2, some e⟩).2 =
      Except.error e ∧
    (nodeVersion addr ⟨none, none, none, none, b1, some e, b2, none⟩).2 =
      Except.error e ∧
    (nodeVersion addr ⟨some e, none, none, none, b1, none, b2, none⟩).2 =
      Except.error e :=
  ⟨rfl, length_fillBuf _ _, rfl, rfl, rfl⟩

/-- C3 counterexample: a completed invocation of nodeVersion performs its
two receives without ever applying a read deadline, and its only timeout
is the fixed one-minute dialer timeout of the single dial. -/
theorem nodeVersion_no_deadline_on_success :
    ((nodeVersion "1.2.3.4:9981" envAllOk).1.filter isRead).length = 2 ∧
    ((nodeVersion "1.2.3.4:9981" envAllOk).1.filter isSetReadDeadline).length = 0 ∧
    (nodeVersion "1.2.3.4:9981" envAllOk).2 = Except.ok [57, 46, 57, 46, 57] :=
  ⟨rfl, rfl, rfl⟩

/-- C3 amended: no invocation of nodeVersion ever applies a read deadline
before either receive; the only timeout in the whole operation is the
hard-coded one-minute connect timeout carried by the single dial event,
and there is no per-read timeout at all. -/
theorem nodeVersion_never_sets_deadline (addr : String) (env : ConnEnv) :
    (nodeVersion addr env).1.filter isSetReadDeadline = [] ∧
    (nodeVersion addr env).1.head? = some (NetEvent.dial "tcp" addr timeMinuteNs) ∧
    timeMinuteNs = 60 * 1000000000 := by
  rcases env with ⟨de, w1, w2, w3, r1b, r1e, r2b, r2e⟩
  refine ⟨?_, ?_, rfl⟩ <;>
    cases de <;> cases w1 <;> cases w2 <;> cases w3 <;> cases r1e <;> cases r2e <;>
      simp [nodeVersion, isSetReadDeadline]

/-- C4 counterexample: an invocation of nodeVersion that completes
successfully never emits a close event: the one connection it dialed is
left open when the invocation returns. -/
theorem nodeVersion_success_without_close :
    (nodeVersion "1.2.3.4:9981" envAllOk).2 = Except.ok [57, 46, 57, 46, 57] ∧
    (nodeVersion "1.2.3.4:9981" envAllOk).1.filter isClose = [] :=
  ⟨rfl, rfl⟩

/-- C4 amended: every invocation of nodeVersion makes exactly one dial
attempt (so no connection is reused or pooled) and never closes the
connection, on the success path and on every error path alike. -/
theorem nodeVersion_one_dial_no_close (addr : String) (env : ConnEnv) :
    ((nodeVersion addr env).1.filter isDial).length = 1 ∧
    (nodeVersion addr env).1.filter isClose = [] := by
  rcases env with ⟨de, w1, w2, w3, r1b, r1e, r2b, r2e⟩
  refine ⟨?_, ?_⟩ <;>
    cases de <;> cases w1 <;> cases w2 <;> cases w3 <;> cases r1e <;> cases r2e <;>
      simp [nodeVersion, isDial, isClose]

/-- C6: whatever the peer later delivers, the send side of a probe whose
writes are accepted emits, in order, the 8-byte little-endian prefix with
value 13, the 8-byte little-endian prefix with value 5 (the length of the
own version string), and the 5 ASCII bytes of the literal "1.2.0". -/
theorem nodeVersion_send_bytes (addr : String) (b1 : List Nat) (e1 : Option GoErr)
    (b2 : List Nat) (e2 : Option GoErr) :
    writtenBytes (nodeVersion addr ⟨none, none, none, none, b1, e1, b2, e2⟩).1 =
      [[13, 0, 0, 0, 0, 0, 0, 0], [5, 0, 0, 0, 0, 0, 0, 0], [49, 46, 50, 46, 48]] ∧
    lePut64 13 = [13, 0, 0, 0, 0, 0, 0, 0] ∧
    lePut64 ownVersion.length = [5, 0, 0, 0, 0, 0, 0, 0] ∧
    ownVersion = [49, 46, 50, 46, 48] := by
  refine ⟨?_, by decide, by decide, by decide⟩
  cases e1 <;> cases e2 <;>
    simp [nodeVersion, writtenBytes, lePut64, ownVersion]

/-- Witness for C1 at concrete sets: the common key keeps the flag of the
leftmost set. -/
theorem mainIntersect_fold_spec_witness :
    PeerSet.lookup (mainIntersect [("a", true), ("b", true)]
        ([("a", false)] :: [[("a", true), ("c", false)]])) "a" =
      (if (([("a", false)] :: [[("a", true), ("c", false)]]).all
          fun s => (PeerSet.lookup s "a").isSome) then
        PeerSet.lookup [("a", true), ("b", true)] "a" else none) :=
  (mainIntersect_fold_spec [("a", true), ("b", true)] [("a", false)]
    [[("a", true), ("c", false)]] "a").1

/-- Witness for C8 at a concrete set: intersecting a set with itself
returns it unchanged. -/
theorem intersect_idem_comm_flags_witness :
    intersect [("a", true), ("b", false)] [("a", true), ("b", false)] =
      [("a", true), ("b", false)] :=
  intersect_idem_comm_flags.1 [("a", true), ("b", false)]

/-- Witness for C9 at a concrete array with a repeated address. -/
theorem entrySet_last_occurrence_witness :
    PeerSet.lookup (entrySet [⟨"a", true⟩, ⟨"a", false⟩]) "a" =
      lastFlag [⟨"a", true⟩, ⟨"a", false⟩] "a" :=
  entrySet_last_occurrence.1 [⟨"a", true⟩, ⟨"a", false⟩] "a"

/-- Witness for the amended C5 at concrete stream outcomes. -/
theorem loadNodes_exit_mapping_witness :
    loadNodes ⟨some "eacces", none, Except.ok []⟩ =
      LoadOutcome.exitProc 1 (errInvalidArgs ++ "eacces") :=
  (loadNodes_exit_mapping "eacces" none (Except.ok []) []).1

/-- Witness for C7 at a concrete address list and probe outcome
function. -/
theorem orchestrate_success_lines_witness :
    ("a", "9.9.9") ∈ probeResults ["a", "b"]
        (fun a => if a = "a" then Except.ok "9.9.9" else Except.error "refused") ↔
      ("a" ∈ ["a", "b"] ∧
        (fun a => if a = "a" then Except.ok "9.9.9" else Except.error "refused") "a" =
          Except.ok "9.9.9") :=
  (orchestrate_success_lines ["a", "b"]
    (fun a => if a = "a" then Except.ok "9.9.9" else Except.error "refused")).1 "a" "9.9.9"

/-- Witness for the amended C2 at a concrete short delivery. -/
theorem nodeVersion_read_outcomes_witness :
    (nodeVersion "h:1"
        ⟨none, none, none, none, [5, 0, 0, 0, 0, 0, 0, 0], none, [57], none⟩).2 =
      Except.ok (fillBuf (leUint64 (fillBuf 8 [5, 0, 0, 0, 0, 0, 0, 0])) [57]) :=
  (nodeVersion_read_outcomes "h:1" [5, 0, 0, 0, 0, 0, 0, 0] [57] "timeout").1

/-- Witness for the amended C3 at a concrete environment. -/
theorem nodeVersion_never_sets_deadline_witness :
    (nodeVersion "h:1" ⟨some "refused", none, none, none, [], none, [], none⟩).1.filter
        isSetReadDeadline = [] :=
  (nodeVersion_never_sets_deadline "h:1"
    ⟨some "refused", none, none, none, [], none, [], none⟩).1

/-- Witness for the amended C4 at a concrete environment. -/
theorem nodeVersion_one_dial_no_close_witness :
    ((nodeVersion "h:1" ⟨none, some "broken pipe", none, none, [], none, [], none⟩).1.filter
        isDial).length = 1 :=
  (nodeVersion_one_dial_no_close "h:1"
    ⟨none, some "broken pipe", none, none, [], none, [], none⟩).1

/-- Witness for C6 at concrete read deliveries. -/
theorem nodeVersion_send_bytes_witness :
    writtenBytes (nodeVersion "h:1"
        ⟨none, none, none, none, [0, 0, 0, 0, 0, 0, 0, 0], none, [], some "eof"⟩).1 =
      [[13, 0, 0, 0, 0, 0, 0, 0], [5, 0, 0, 0, 0, 0, 0, 0], [49, 46, 50, 46, 48]] :=
  (nodeVersion_send_bytes "h:1" [0, 0, 0, 0, 0, 0, 0, 0] none [] (some "eof")).1

end Nodecmp
